import Mathlib

/-!
Verification of the brew-recipe calculator (`planBrew` in
`src/lib/brewCalculator.ts`) of the coffee-brewster repository.

JavaScript numeric values are modelled as exact rationals (`ℚ`).
`Math.round` rounds half toward positive infinity, which is `⌊x + 1/2⌋`;
`Number.prototype.toFixed(f)` followed by unary plus rounds to `f` decimal
digits with ties toward the larger value, which for `f = 1` is
`⌊10·x + 1/2⌋ / 10`.  All method data (absorption coefficients,
temperatures, grind and filter labels, and the five seeded method
definitions) is transcribed from the source.  The successive local
constants of `planBrew` (`yieldTargetMl`, `R`, `coffee`, `absorption`,
`waterTotal`, `bloomMl`, `remaining`) are factored into named definitions
so that the intermediate values can be reasoned about.
-/

namespace BrewCalc

/-- The closed enumeration of method keys (`MethodKey` in the source). -/
inductive MethodKey where
  | v60
  | chemex
  | aeropress
  | french_press
  | moka
deriving DecidableEq, Repr

/-- `BrewMethod` record: key, default coffee-to-water ratio, bloom flag,
descriptive pour count. -/
structure BrewMethod where
  key : MethodKey
  defaultRatio : ℚ
  bloom : Bool
  pours : ℕ
deriving DecidableEq, Repr

/-- A single step of the pour schedule (`PourStep` in the source). -/
structure PourStep where
  atSec : ℚ
  volumeMl : ℚ
  label : String
deriving DecidableEq, Repr

/-- The computed output (`BrewPlan` in the source). -/
structure BrewPlan where
  coffeeGrams : ℚ
  waterTotalMl : ℚ
  yieldTargetMl : ℚ
  bloomMl : Option ℚ
  pours : List PourStep
  tempC : ℚ
  grind : String
  filter : String
deriving DecidableEq, Repr

/-- Per-method absorption coefficient (`ABS_COEF` in the source). -/
def ABS_COEF : MethodKey → ℚ
  | .v60 => 2
  | .chemex => 2
  | .aeropress => 3/2
  | .french_press => 11/5
  | .moka => 4/5

/-- Per-method recommended temperature (`TEMP_RANGES` in the source). -/
def TEMP_RANGES : MethodKey → ℚ
  | .v60 => 94
  | .chemex => 94
  | .aeropress => 85
  | .french_press => 95
  | .moka => 98

/-- Per-method grind label (`GRIND_SUGGESTIONS` in the source). -/
def GRIND_SUGGESTIONS : MethodKey → String
  | .v60 => "Medium-fine"
  | .chemex => "Medium-coarse"
  | .aeropress => "Medium"
  | .french_press => "Coarse"
  | .moka => "Fine-medium"

/-- Per-method filter label (`FILTER_SUGGESTIONS` in the source). -/
def FILTER_SUGGESTIONS : MethodKey → String
  | .v60 => "V60 paper"
  | .chemex => "Chemex paper"
  | .aeropress => "Paper or metal"
  | .french_press => "Metal mesh"
  | .moka => "Basket"

/-- JavaScript `Math.round`: round half toward positive infinity. -/
def jsRound (x : ℚ) : ℤ := ⌊x + 1/2⌋

/-- JavaScript `+(x.toFixed(1))`: round to one decimal digit, ties toward
the larger value. -/
def toFixed1 (x : ℚ) : ℚ := (jsRound (10 * x) : ℚ) / 10

/-- The argument record of `planBrew` (method plus the numeric inputs;
`ratio` and `targetYieldMl` are optional). -/
structure BrewRequest where
  method : BrewMethod
  cups : ℚ
  cupSizeMl : ℚ
  ratio : Option ℚ
  targetYieldMl : Option ℚ
deriving DecidableEq, Repr

/-- `const yieldTargetMl = Math.round(targetYieldMl ?? cups * cupSizeMl)`. -/
def yieldTargetOf (req : BrewRequest) : ℚ :=
  (jsRound (req.targetYieldMl.getD (req.cups * req.cupSizeMl)) : ℚ)

/-- `const R = ratio ?? method.defaultRatio`. -/
def ratioOf (req : BrewRequest) : ℚ :=
  req.ratio.getD req.method.defaultRatio

/-- `const coffee = +(yieldTargetMl / R).toFixed(1)`. -/
def coffeeOf (req : BrewRequest) : ℚ :=
  toFixed1 (yieldTargetOf req / ratioOf req)

/-- `const absorption = +(coffee * ABS_COEF[method.key]).toFixed(0)`. -/
def absorptionOf (req : BrewRequest) : ℚ :=
  (jsRound (coffeeOf req * ABS_COEF req.method.key) : ℚ)

/-- `const waterTotal = yieldTargetMl + absorption`. -/
def waterTotalOf (req : BrewRequest) : ℚ :=
  yieldTargetOf req + absorptionOf req

/-- `bloomMl = Math.min(Math.max(2 * coffee, 30), 60)` when the method
blooms, undefined otherwise. -/
def bloomOf (req : BrewRequest) : Option ℚ :=
  if req.method.bloom then some (min (max (2 * coffeeOf req) 30) 60)
  else none

/-- The bloom step pushed onto the schedule when the method blooms. -/
def bloomStepsOf (req : BrewRequest) : List PourStep :=
  match bloomOf req with
  | some b => [⟨0, (jsRound b : ℚ), "Bloom"⟩]
  | none => []

/-- `const remaining = waterTotal - (bloomMl ?? 0)`. -/
def remainingOf (req : BrewRequest) : ℚ :=
  waterTotalOf req - (bloomOf req).getD 0

/-- The schedule tail appended after the optional bloom step: the
per-method `if`/`else if` chain of the source. -/
def methodSchedule (key : MethodKey) (remaining waterTotal : ℚ) : List PourStep :=
  match key with
  | .v60 =>
      [⟨45, (jsRound (remaining * (55/100)) : ℚ), "First pour"⟩,
       ⟨105, (jsRound (remaining * (45/100)) : ℚ), "Second pour"⟩]
  | .chemex =>
      [⟨45, (jsRound (remaining * (40/100)) : ℚ), "First pour"⟩,
       ⟨105, (jsRound (remaining * (30/100)) : ℚ), "Second pour"⟩,
       ⟨165, (jsRound (remaining * (30/100)) : ℚ), "Third pour"⟩]
  | .aeropress =>
      [⟨45, remaining, "Fill & steep"⟩]
  | .french_press =>
      [⟨0, waterTotal, "Fill"⟩]
  | .moka =>
      [⟨0, waterTotal, "Assemble & heat"⟩]

/-- `planBrew` transcribed from the source: yield, ratio, coffee mass,
absorption, total water, optional bloom, then the per-method schedule. -/
def planBrew (req : BrewRequest) : BrewPlan :=
  { coffeeGrams := coffeeOf req
    waterTotalMl := waterTotalOf req
    yieldTargetMl := yieldTargetOf req
    bloomMl := bloomOf req
    pours := bloomStepsOf req ++
      methodSchedule req.method.key (remainingOf req) (waterTotalOf req)
    tempC := TEMP_RANGES req.method.key
    grind := GRIND_SUGGESTIONS req.method.key
    filter := FILTER_SUGGESTIONS req.method.key }

/-- The five seeded method definitions (`METHOD_PRESETS` in the seed
script, matching the test fixtures). -/
def v60Method : BrewMethod := ⟨.v60, 15, true, 2⟩

def chemexMethod : BrewMethod := ⟨.chemex, 16, true, 3⟩

def aeropressMethod : BrewMethod := ⟨.aeropress, 14, true, 0⟩

def frenchPressMethod : BrewMethod := ⟨.french_press, 15, false, 0⟩

def mokaMethod : BrewMethod := ⟨.moka, 10, false, 0⟩

/-- The list of the five fixed method definitions. -/
def fixedMethods : List BrewMethod :=
  [v60Method, chemexMethod, aeropressMethod, frenchPressMethod, mokaMethod]

/-- A predicate on an optional value holding vacuously when absent. -/
def optHolds (p : ℚ → Prop) : Option ℚ → Prop
  | none => True
  | some x => p x

instance (p : ℚ → Prop) [DecidablePred p] :
    (o : Option ℚ) → Decidable (optHolds p o)
  | none => isTrue trivial
  | some x => inferInstanceAs (Decidable (p x))

/-- A valid brew request: positive cups and cup size, positive default
ratio, positive ratio override when supplied, target yield within the
validated range 50–3000 when supplied. -/
def ValidRequest (req : BrewRequest) : Prop :=
  0 < req.cups ∧ 0 < req.cupSizeMl ∧ 0 < req.method.defaultRatio ∧
    optHolds (fun r => 0 < r) req.ratio ∧
    optHolds (fun t => 50 ≤ t ∧ t ≤ 3000) req.targetYieldMl

instance (req : BrewRequest) : Decidable (ValidRequest req) :=
  inferInstanceAs (Decidable (_ ∧ _))

/-- Sum of the volumes of a pour schedule. -/
def poursTotal (steps : List PourStep) : ℚ :=
  (steps.map PourStep.volumeMl).sum

/-- The positivity assumptions of the implicit integrality claim: positive
cups and cup size, positive effective ratio, positive target yield when
supplied. -/
def PositiveRequest (req : BrewRequest) : Prop :=
  0 < req.cups ∧ 0 < req.cupSizeMl ∧ 0 < ratioOf req ∧
    optHolds (fun t => 0 < t) req.targetYieldMl

instance (req : BrewRequest) : Decidable (PositiveRequest req) :=
  inferInstanceAs (Decidable (_ ∧ _))

/-- V60, 2 cups of 240 ml, all defaults (the spec's first scenario). -/
def c7req : BrewRequest := ⟨v60Method, 2, 240, none, none⟩

/-- V60, 2 cups of 240 ml, explicit target yield of 485 ml. -/
def y485req : BrewRequest := ⟨v60Method, 2, 240, none, some 485⟩

/-- V60, 2 cups of 240 ml, fractional target yield of 400.5 ml. -/
def halfYieldReq : BrewRequest := ⟨v60Method, 2, 240, none, some (801/2)⟩

/-- AeroPress, 1 cup of 240 ml, all defaults. -/
def aeroReq : BrewRequest := ⟨aeropressMethod, 1, 240, none, none⟩

/-- V60, 1 cup of 240 ml, ratio override 12. -/
def ratio12req : BrewRequest := ⟨v60Method, 1, 240, some 12, none⟩

/-! ### Basic rounding lemmas -/

theorem jsRound_le (x : ℚ) : (jsRound x : ℚ) ≤ x + 1/2 :=
  Int.floor_le _

theorem lt_jsRound (x : ℚ) : x - 1/2 < (jsRound x : ℚ) := by
  have h := Int.sub_one_lt_floor (x + 1/2)
  rw [jsRound]
  linarith

theorem abs_jsRound_sub_le (x : ℚ) : |(jsRound x : ℚ) - x| ≤ 1/2 := by
  rw [abs_le]
  constructor
  · have := lt_jsRound x
    linarith
  · have := jsRound_le x
    linarith

theorem jsRound_intCast (n : ℤ) : jsRound (n : ℚ) = n := by
  rw [jsRound, Int.floor_eq_iff]
  constructor
  · linarith
  · linarith

theorem jsRound_nonneg {x : ℚ} (hx : 0 ≤ x) : 0 ≤ jsRound x := by
  rw [jsRound, Int.le_floor]
  push_cast
  linarith

theorem toFixed1_nonneg {x : ℚ} (hx : 0 ≤ x) : 0 ≤ toFixed1 x := by
  rw [toFixed1]
  have h : 0 ≤ jsRound (10 * x) := jsRound_nonneg (by linarith)
  positivity

theorem abs_add_three (a b c : ℚ) : |a + b + c| ≤ |a| + |b| + |c| :=
  (abs_add _ _).trans (add_le_add_right (abs_add a b) _)

theorem abs_add_four (a b c d : ℚ) :
    |a + b + c + d| ≤ |a| + |b| + |c| + |d| :=
  (abs_add _ _).trans (add_le_add_right (abs_add_three a b c) _)

/-! ### Shape of the schedule for each of the five fixed methods -/

theorem clampedBloom_eq (req : BrewRequest) (h : req.method.bloom = true) :
    bloomOf req = some (min (max (2 * coffeeOf req) 30) 60) := by
  rw [bloomOf, h]
  simp

theorem remainingOf_bloom (req : BrewRequest) (h : req.method.bloom = true) :
    remainingOf req =
      waterTotalOf req - min (max (2 * coffeeOf req) 30) 60 := by
  rw [remainingOf, clampedBloom_eq req h]
  rfl

theorem pours_v60 (req : BrewRequest) (h : req.method = v60Method) :
    (planBrew req).pours =
      [⟨0, (jsRound (min (max (2 * coffeeOf req) 30) 60) : ℚ), "Bloom"⟩,
       ⟨45, (jsRound (remainingOf req * (55/100)) : ℚ), "First pour"⟩,
       ⟨105, (jsRound (remainingOf req * (45/100)) : ℚ), "Second pour"⟩] := by
  have hb : req.method.bloom = true := by rw [h]; rfl
  have hk : req.method.key = .v60 := by rw [h]; rfl
  rw [planBrew]
  simp [bloomStepsOf, clampedBloom_eq req hb, methodSchedule, hk]

theorem pours_chemex (req : BrewRequest) (h : req.method = chemexMethod) :
    (planBrew req).pours =
      [⟨0, (jsRound (min (max (2 * coffeeOf req) 30) 60) : ℚ), "Bloom"⟩,
       ⟨45, (jsRound (remainingOf req * (40/100)) : ℚ), "First pour"⟩,
       ⟨105, (jsRound (remainingOf req * (30/100)) : ℚ), "Second pour"⟩,
       ⟨165, (jsRound (remainingOf req * (30/100)) : ℚ), "Third pour"⟩] := by
  have hb : req.method.bloom = true := by rw [h]; rfl
  have hk : req.method.key = .chemex := by rw [h]; rfl
  rw [planBrew]
  simp [bloomStepsOf, clampedBloom_eq req hb, methodSchedule, hk]

theorem pours_aeropress (req : BrewRequest) (h : req.method = aeropressMethod) :
    (planBrew req).pours =
      [⟨0, (jsRound (min (max (2 * coffeeOf req) 30) 60) : ℚ), "Bloom"⟩,
       ⟨45, remainingOf req, "Fill & steep"⟩] := by
  have hb : req.method.bloom = true := by rw [h]; rfl
  have hk : req.method.key = .aeropress := by rw [h]; rfl
  rw [planBrew]
  simp [bloomStepsOf, clampedBloom_eq req hb, methodSchedule, hk]

theorem pours_french_press (req : BrewRequest)
    (h : req.method = frenchPressMethod) :
    (planBrew req).pours = [⟨0, waterTotalOf req, "Fill"⟩] := by
  have hb : bloomOf req = none := by rw [bloomOf, h]; rfl
  have hk : req.method.key = .french_press := by rw [h]; rfl
  rw [planBrew]
  simp [bloomStepsOf, hb, methodSchedule, hk]

theorem pours_moka (req : BrewRequest) (h : req.method = mokaMethod) :
    (planBrew req).pours = [⟨0, waterTotalOf req, "Assemble & heat"⟩] := by
  have hb : bloomOf req = none := by rw [bloomOf, h]; rfl
  have hk : req.method.key = .moka := by rw [h]; rfl
  rw [planBrew]
  simp [bloomStepsOf, hb, methodSchedule, hk]

theorem planBrew_waterTotalMl (req : BrewRequest) :
    (planBrew req).waterTotalMl = waterTotalOf req := rfl

theorem planBrew_yieldTargetMl (req : BrewRequest) :
    (planBrew req).yieldTargetMl = yieldTargetOf req := rfl

theorem planBrew_coffeeGrams (req : BrewRequest) :
    (planBrew req).coffeeGrams = coffeeOf req := rfl

theorem planBrew_bloomMl (req : BrewRequest) :
    (planBrew req).bloomMl = bloomOf req := rfl

/-! ### Volume conservation up to per-step rounding -/

/-- Each pour volume is obtained by rounding an exact share, so the total
drifts from `waterTotalMl` by at most half a milliliter per step. -/
theorem conservation_core (req : BrewRequest) (hm : req.method ∈ fixedMethods) :
    |poursTotal (planBrew req).pours - (planBrew req).waterTotalMl| ≤
      ((planBrew req).pours.length : ℚ) / 2 := by
  simp only [fixedMethods, List.mem_cons, List.not_mem_nil, or_false] at hm
  rcases hm with h | h | h | h | h
  · -- v60
    have hrem := remainingOf_bloom req (by rw [h]; rfl)
    rw [planBrew_waterTotalMl, pours_v60 req h, hrem]
    set W := waterTotalOf req
    set m := min (max (2 * coffeeOf req) 30) 60
    have e1 := abs_jsRound_sub_le m
    have e2 := abs_jsRound_sub_le ((W - m) * (55/100))
    have e3 := abs_jsRound_sub_le ((W - m) * (45/100))
    have hsum : poursTotal
        [⟨0, (jsRound m : ℚ), "Bloom"⟩,
         ⟨45, (jsRound ((W - m) * (55/100)) : ℚ), "First pour"⟩,
         ⟨105, (jsRound ((W - m) * (45/100)) : ℚ), "Second pour"⟩]
        = (jsRound m : ℚ) + (jsRound ((W - m) * (55/100)) : ℚ)
          + (jsRound ((W - m) * (45/100)) : ℚ) := by
      simp only [poursTotal, List.map_cons, List.map_nil, List.sum_cons,
        List.sum_nil, add_zero]
      ring
    rw [hsum]
    have key : (jsRound m : ℚ) + (jsRound ((W - m) * (55/100)) : ℚ)
        + (jsRound ((W - m) * (45/100)) : ℚ) - W
        = ((jsRound m : ℚ) - m)
          + ((jsRound ((W - m) * (55/100)) : ℚ) - (W - m) * (55/100))
          + ((jsRound ((W - m) * (45/100)) : ℚ) - (W - m) * (45/100)) := by
      ring
    rw [key]
    refine (abs_add_three _ _ _).trans ?_
    simp only [List.length_cons, List.length_nil]
    push_cast
    linarith
  · -- chemex
    have hrem := remainingOf_bloom req (by rw [h]; rfl)
    rw [planBrew_waterTotalMl, pours_chemex req h, hrem]
    set W := waterTotalOf req
    set m := min (max (2 * coffeeOf req) 30) 60
    have e1 := abs_jsRound_sub_le m
    have e2 := abs_jsRound_sub_le ((W - m) * (40/100))
    have e3 := abs_jsRound_sub_le ((W - m) * (30/100))
    have hsum : poursTotal
        [⟨0, (jsRound m : ℚ), "Bloom"⟩,
         ⟨45, (jsRound ((W - m) * (40/100)) : ℚ), "First pour"⟩,
         ⟨105, (jsRound ((W - m) * (30/100)) : ℚ), "Second pour"⟩,
         ⟨165, (jsRound ((W - m) * (30/100)) : ℚ), "Third pour"⟩]
        = (jsRound m : ℚ) + (jsRound ((W - m) * (40/100)) : ℚ)
          + (jsRound ((W - m) * (30/100)) : ℚ)
          + (jsRound ((W - m) * (30/100)) : ℚ) := by
      simp only [poursTotal, List.map_cons, List.map_nil, List.sum_cons,
        List.sum_nil, add_zero]
      ring
    rw [hsum]
    have key : (jsRound m : ℚ) + (jsRound ((W - m) * (40/100)) : ℚ)
        + (jsRound ((W - m) * (30/100)) : ℚ)
        + (jsRound ((W - m) * (30/100)) : ℚ) - W
        = ((jsRound m : ℚ) - m)
          + ((jsRound ((W - m) * (40/100)) : ℚ) - (W - m) * (40/100))
          + ((jsRound ((W - m) * (30/100)) : ℚ) - (W - m) * (30/100))
          + ((jsRound ((W - m) * (30/100)) : ℚ) - (W - m) * (30/100)) := by
      ring
    rw [key]
    refine (abs_add_four _ _ _ _).trans ?_
    simp only [List.length_cons, List.length_nil]
    push_cast
    linarith
  · -- aeropress
    have hrem := remainingOf_bloom req (by rw [h]; rfl)
    rw [planBrew_waterTotalMl, pours_aeropress req h, hrem]
    set W := waterTotalOf req
    set m := min (max (2 * coffeeOf req) 30) 60
    have e1 := abs_jsRound_sub_le m
    have hsum : poursTotal
        [⟨0, (jsRound m : ℚ), "Bloom"⟩, ⟨45, W - m, "Fill & steep"⟩]
        = (jsRound m : ℚ) + (W - m) := by
      simp only [poursTotal, List.map_cons, List.map_nil, List.sum_cons,
        List.sum_nil, add_zero]
    rw [hsum]
    have key : (jsRound m : ℚ) + (W - m) - W = (jsRound m : ℚ) - m := by ring
    rw [key]
    simp only [List.length_cons, List.length_nil]
    push_cast
    linarith
  · -- french_press
    rw [planBrew_waterTotalMl, pours_french_press req h]
    simp [poursTotal]
  · -- moka
    rw [planBrew_waterTotalMl, pours_moka req h]
    simp [poursTotal]

/-! ### Concrete requests used in scenarios, witnesses and counterexamples -/

theorem yieldTargetOf_c7 : yieldTargetOf c7req = 480 := by
  norm_num [yieldTargetOf, c7req, jsRound, Int.floor_eq_iff]

theorem coffeeOf_c7 : coffeeOf c7req = 32 := by
  rw [coffeeOf, yieldTargetOf_c7]
  norm_num [ratioOf, c7req, v60Method, toFixed1, jsRound, Int.floor_eq_iff]

theorem absorptionOf_c7 : absorptionOf c7req = 64 := by
  simp only [absorptionOf, coffeeOf_c7]
  norm_num [c7req, v60Method, ABS_COEF, jsRound, Int.floor_eq_iff]

theorem waterTotalOf_c7 : waterTotalOf c7req = 544 := by
  simp only [waterTotalOf, yieldTargetOf_c7, absorptionOf_c7]
  norm_num

theorem bloomOf_c7 : bloomOf c7req = some 60 := by
  simp only [bloomOf, coffeeOf_c7]
  norm_num [c7req, v60Method, min_def, max_def]

theorem remainingOf_c7 : remainingOf c7req = 484 := by
  simp only [remainingOf, waterTotalOf_c7, bloomOf_c7, Option.getD_some]
  norm_num

theorem planBrew_c7 :
    planBrew c7req =
      { coffeeGrams := 32, waterTotalMl := 544, yieldTargetMl := 480,
        bloomMl := some 60,
        pours := [⟨0, 60, "Bloom"⟩, ⟨45, 266, "First pour"⟩,
          ⟨105, 218, "Second pour"⟩],
        tempC := 94, grind := "Medium-fine", filter := "V60 paper" } := by
  have hkey : c7req.method.key = .v60 := rfl
  simp only [planBrew, coffeeOf_c7, waterTotalOf_c7, yieldTargetOf_c7,
    bloomOf_c7, remainingOf_c7, bloomStepsOf, bloomStepsOf, hkey,
    methodSchedule, TEMP_RANGES, GRIND_SUGGESTIONS, FILTER_SUGGESTIONS]
  norm_num [jsRound, Int.floor_eq_iff]

theorem yieldTargetOf_y485 : yieldTargetOf y485req = 485 := by
  norm_num [yieldTargetOf, y485req, jsRound, Int.floor_eq_iff]

theorem coffeeOf_y485 : coffeeOf y485req = 323/10 := by
  rw [coffeeOf, yieldTargetOf_y485]
  norm_num [ratioOf, y485req, v60Method, toFixed1, jsRound, Int.floor_eq_iff]

theorem absorptionOf_y485 : absorptionOf y485req = 65 := by
  simp only [absorptionOf, coffeeOf_y485]
  norm_num [y485req, v60Method, ABS_COEF, jsRound, Int.floor_eq_iff]

theorem waterTotalOf_y485 : waterTotalOf y485req = 550 := by
  simp only [waterTotalOf, yieldTargetOf_y485, absorptionOf_y485]
  norm_num

theorem bloomOf_y485 : bloomOf y485req = some 60 := by
  simp only [bloomOf, coffeeOf_y485]
  norm_num [y485req, v60Method, min_def, max_def]

theorem remainingOf_y485 : remainingOf y485req = 490 := by
  simp only [remainingOf, waterTotalOf_y485, bloomOf_y485, Option.getD_some]
  norm_num

theorem poursTotal_y485 : poursTotal (planBrew y485req).pours = 551 := by
  have hm : y485req.method = v60Method := rfl
  have hb : min (max (2 * coffeeOf y485req) 30) 60 = 60 := by
    rw [coffeeOf_y485]
    norm_num [min_def, max_def]
  rw [pours_v60 y485req hm, hb, remainingOf_y485]
  simp only [poursTotal, List.map_cons, List.map_nil, List.sum_cons,
    List.sum_nil, add_zero]
  norm_num [jsRound, Int.floor_eq_iff]

theorem yieldTargetOf_halfYield : yieldTargetOf halfYieldReq = 401 := by
  norm_num [yieldTargetOf, halfYieldReq, jsRound, Int.floor_eq_iff]

theorem yieldTargetOf_aero : yieldTargetOf aeroReq = 240 := by
  norm_num [yieldTargetOf, aeroReq, jsRound, Int.floor_eq_iff]

theorem coffeeOf_aero : coffeeOf aeroReq = 171/10 := by
  rw [coffeeOf, yieldTargetOf_aero]
  norm_num [ratioOf, aeroReq, aeropressMethod, toFixed1, jsRound,
    Int.floor_eq_iff]

theorem absorptionOf_aero : absorptionOf aeroReq = 26 := by
  simp only [absorptionOf, coffeeOf_aero]
  norm_num [aeroReq, aeropressMethod, ABS_COEF, jsRound, Int.floor_eq_iff]

theorem waterTotalOf_aero : waterTotalOf aeroReq = 266 := by
  simp only [waterTotalOf, yieldTargetOf_aero, absorptionOf_aero]
  norm_num

theorem bloomOf_aero : bloomOf aeroReq = some (171/5) := by
  simp only [bloomOf, coffeeOf_aero]
  norm_num [aeroReq, aeropressMethod, min_def, max_def]

theorem remainingOf_aero : remainingOf aeroReq = 1159/5 := by
  simp only [remainingOf, waterTotalOf_aero, bloomOf_aero, Option.getD_some]
  norm_num

theorem pours_aero :
    (planBrew aeroReq).pours =
      [⟨0, 34, "Bloom"⟩, ⟨45, 1159/5, "Fill & steep"⟩] := by
  have hm : aeroReq.method = aeropressMethod := rfl
  have hb : min (max (2 * coffeeOf aeroReq) 30) 60 = 171/5 := by
    rw [coffeeOf_aero]
    norm_num [min_def, max_def]
  rw [pours_aeropress aeroReq hm, hb, remainingOf_aero]
  norm_num [jsRound, Int.floor_eq_iff]

theorem yieldTargetOf_ratio12 : yieldTargetOf ratio12req = 240 := by
  norm_num [yieldTargetOf, ratio12req, jsRound, Int.floor_eq_iff]

theorem coffeeOf_ratio12 : coffeeOf ratio12req = 20 := by
  rw [coffeeOf, yieldTargetOf_ratio12]
  norm_num [ratioOf, ratio12req, toFixed1, jsRound, Int.floor_eq_iff]

theorem y485req_fixed : y485req.method ∈ fixedMethods := by
  simp [fixedMethods, y485req]

theorem y485req_valid : ValidRequest y485req := by
  refine ⟨by norm_num [y485req], by norm_num [y485req],
    by norm_num [y485req, v60Method], trivial, ?_⟩
  show optHolds _ (some 485)
  norm_num [optHolds]

/-! ### Claims -/

/-- C1: on the valid request (v60, 2 cups of 240 ml, target yield 485 ml)
the sum of the pour volumes is 551 ml while `waterTotalMl` is 550 ml, so
the exact-conservation claim fails. -/
theorem claim_C1_counterexample :
    y485req.method ∈ fixedMethods ∧ ValidRequest y485req ∧
      poursTotal (planBrew y485req).pours ≠ (planBrew y485req).waterTotalMl := by
  refine ⟨y485req_fixed, y485req_valid, ?_⟩
  rw [poursTotal_y485, planBrew_waterTotalMl, waterTotalOf_y485]
  norm_num

/-- C1 (amended): for every fixed method and valid brew request, the sum
of the pour volumes differs from `waterTotalMl` by at most half a
milliliter per pour step. -/
theorem claim_C1_amended (req : BrewRequest) (hm : req.method ∈ fixedMethods)
    (_hv : ValidRequest req) :
    |poursTotal (planBrew req).pours - (planBrew req).waterTotalMl| ≤
      ((planBrew req).pours.length : ℚ) / 2 :=
  conservation_core req hm

theorem claim_C1_amended_witness :
    c7req.method ∈ fixedMethods ∧ ValidRequest c7req ∧
      |poursTotal (planBrew c7req).pours - (planBrew c7req).waterTotalMl| ≤
        ((planBrew c7req).pours.length : ℚ) / 2 := by
  have hm : c7req.method ∈ fixedMethods := by simp [fixedMethods, c7req]
  have hv : ValidRequest c7req := by
    exact ⟨by norm_num [c7req], by norm_num [c7req],
      by norm_num [c7req, v60Method], trivial, trivial⟩
  exact ⟨hm, hv, claim_C1_amended c7req hm hv⟩

/-- C2: for every fixed method and valid brew request, the sum of the
pour volumes differs from `waterTotalMl` by at most the number of pour
steps in milliliters. -/
theorem claim_C2 (req : BrewRequest) (hm : req.method ∈ fixedMethods)
    (_hv : ValidRequest req) :
    |poursTotal (planBrew req).pours - (planBrew req).waterTotalMl| ≤
      ((planBrew req).pours.length : ℚ) := by
  refine (conservation_core req hm).trans ?_
  have h : (0 : ℚ) ≤ ((planBrew req).pours.length : ℚ) := Nat.cast_nonneg _
  linarith

theorem claim_C2_witness :
    y485req.method ∈ fixedMethods ∧ ValidRequest y485req ∧
      |poursTotal (planBrew y485req).pours - (planBrew y485req).waterTotalMl| ≤
        ((planBrew y485req).pours.length : ℚ) :=
  ⟨y485req_fixed, y485req_valid, claim_C2 y485req y485req_fixed y485req_valid⟩

theorem methodSchedule_labels (key : MethodKey) (r W : ℚ) :
    ∀ s ∈ methodSchedule key r W, s.label ≠ "Bloom" := by
  cases key <;> intro s hs <;>
    simp only [methodSchedule, List.mem_cons, List.mem_singleton,
      List.not_mem_nil, or_false] at hs
  · rcases hs with rfl | rfl <;> simp
  · rcases hs with rfl | rfl | rfl <;> simp
  · rcases hs with rfl; simp
  · rcases hs with rfl; simp
  · rcases hs with rfl; simp

/-- C3: a blooming method always puts a "Bloom" step first at offset 0;
a non-blooming method produces no "Bloom" step and no `bloomMl`. -/
theorem claim_C3 (req : BrewRequest) (_hv : ValidRequest req) :
    (req.method.bloom = true →
      ∃ s, (planBrew req).pours.head? = some s ∧
        s.label = "Bloom" ∧ s.atSec = 0)
    ∧ (req.method.bloom = false →
      (∀ s ∈ (planBrew req).pours, s.label ≠ "Bloom") ∧
        (planBrew req).bloomMl = none) := by
  constructor
  · intro hb
    refine ⟨⟨0, (jsRound (min (max (2 * coffeeOf req) 30) 60) : ℚ), "Bloom"⟩,
      ?_, rfl, rfl⟩
    simp [planBrew, bloomStepsOf, clampedBloom_eq req hb]
  · intro hb
    have hbo : bloomOf req = none := by simp [bloomOf, hb]
    have hp : (planBrew req).pours =
        methodSchedule req.method.key (remainingOf req) (waterTotalOf req) := by
      simp [planBrew, bloomStepsOf, hbo]
    refine ⟨?_, by rw [planBrew_bloomMl, hbo]⟩
    intro s hs
    rw [hp] at hs
    exact methodSchedule_labels _ _ _ s hs

theorem claim_C3_witness :
    ValidRequest c7req ∧
      (∃ s, (planBrew c7req).pours.head? = some s ∧
        s.label = "Bloom" ∧ s.atSec = 0) := by
  have hv : ValidRequest c7req :=
    ⟨by norm_num [c7req], by norm_num [c7req],
      by norm_num [c7req, v60Method], trivial, trivial⟩
  exact ⟨hv, (claim_C3 c7req hv).1 rfl⟩

/-- C4: a valid request may carry a fractional target yield (the upstream
schema does not force integers); at 400.5 ml the result is 401 ml, not
the supplied value. -/
theorem claim_C4_counterexample :
    ValidRequest halfYieldReq ∧ halfYieldReq.targetYieldMl = some (801/2) ∧
      (planBrew halfYieldReq).yieldTargetMl ≠ 801/2 := by
  refine ⟨⟨by norm_num [halfYieldReq], by norm_num [halfYieldReq],
    by norm_num [halfYieldReq, v60Method], trivial, ?_⟩, rfl, ?_⟩
  · show optHolds _ (some (801/2))
    norm_num [optHolds]
  · rw [planBrew_yieldTargetMl, yieldTargetOf_halfYield]
    norm_num

/-- C4 (amended): when `targetYieldMl` is supplied, the plan's
`yieldTargetMl` is `Math.round` of the supplied value — hence equals it
exactly whenever it is an integer — and is unaffected by `cups` and
`cupSizeMl`. -/
theorem claim_C4_amended (req : BrewRequest) (t : ℚ) (_hv : ValidRequest req)
    (ht : req.targetYieldMl = some t) :
    (planBrew req).yieldTargetMl = (jsRound t : ℚ)
    ∧ (∀ n : ℤ, t = (n : ℚ) → (planBrew req).yieldTargetMl = t)
    ∧ ∀ c s : ℚ,
      (planBrew { req with cups := c, cupSizeMl := s }).yieldTargetMl =
        (planBrew req).yieldTargetMl := by
  have h1 : (planBrew req).yieldTargetMl = (jsRound t : ℚ) := by
    rw [planBrew_yieldTargetMl, yieldTargetOf, ht, Option.getD_some]
  refine ⟨h1, ?_, ?_⟩
  · intro n hn
    rw [h1, hn, jsRound_intCast]
  · intro c s
    simp [planBrew_yieldTargetMl, yieldTargetOf, ht]

theorem claim_C4_amended_witness :
    ValidRequest y485req ∧ y485req.targetYieldMl = some 485 ∧
      (planBrew y485req).yieldTargetMl = 485 := by
  refine ⟨y485req_valid, rfl, ?_⟩
  exact (claim_C4_amended y485req 485 y485req_valid rfl).2.1 485 (by norm_num)

/-- C5: when `ratio` is supplied, `coffeeGrams` is the yield divided by
that ratio rounded to one decimal digit, and the method's `defaultRatio`
has no effect. -/
theorem claim_C5 (req : BrewRequest) (r : ℚ) (_hv : ValidRequest req)
    (hr : req.ratio = some r) :
    (planBrew req).coffeeGrams = toFixed1 ((planBrew req).yieldTargetMl / r)
    ∧ ∀ d : ℚ,
      (planBrew { req with method := { req.method with defaultRatio := d } }).coffeeGrams =
        (planBrew req).coffeeGrams := by
  constructor
  · rw [planBrew_coffeeGrams, planBrew_yieldTargetMl, coffeeOf, ratioOf, hr,
      Option.getD_some]
  · intro d
    simp [planBrew_coffeeGrams, coffeeOf, ratioOf, yieldTargetOf, hr]

theorem claim_C5_witness :
    ValidRequest ratio12req ∧ ratio12req.ratio = some 12 ∧
      (planBrew ratio12req).coffeeGrams =
        toFixed1 ((planBrew ratio12req).yieldTargetMl / 12) ∧
      (planBrew ratio12req).coffeeGrams = 20 := by
  have hv : ValidRequest ratio12req := by
    refine ⟨by norm_num [ratio12req], by norm_num [ratio12req],
      by norm_num [ratio12req, v60Method], ?_, trivial⟩
    show optHolds _ (some 12)
    norm_num [optHolds]
  refine ⟨hv, rfl, (claim_C5 ratio12req 12 hv rfl).1, ?_⟩
  rw [planBrew_coffeeGrams, coffeeOf_ratio12]

/-- C6: whenever the returned plan carries a `bloomMl` value, it lies in
the closed interval [30, 60]. -/
theorem claim_C6 (req : BrewRequest) (b : ℚ)
    (hb : (planBrew req).bloomMl = some b) : 30 ≤ b ∧ b ≤ 60 := by
  rw [planBrew_bloomMl, bloomOf] at hb
  by_cases h : req.method.bloom = true
  · rw [if_pos h] at hb
    have heq := Option.some.inj hb
    subst heq
    exact ⟨le_min (le_max_right _ _) (by norm_num), min_le_right _ _⟩
  · rw [if_neg h] at hb
    simp at hb

theorem claim_C6_witness :
    (planBrew c7req).bloomMl = some 60 ∧ 30 ≤ (60 : ℚ) ∧ (60 : ℚ) ≤ 60 := by
  have hb : (planBrew c7req).bloomMl = some 60 := by
    rw [planBrew_bloomMl, bloomOf_c7]
  exact ⟨hb, claim_C6 c7req 60 hb⟩

/-- C7: the V60 two-cup default scenario yields 480 ml target, 32 g
coffee, 544 ml total water and the three steps Bloom at 0 s, First pour
at 45 s, Second pour at 105 s. -/
theorem claim_C7 :
    (planBrew c7req).yieldTargetMl = 480 ∧
      (planBrew c7req).coffeeGrams = 32 ∧
      (planBrew c7req).waterTotalMl = 544 ∧
      (planBrew c7req).pours =
        [⟨0, 60, "Bloom"⟩, ⟨45, 266, "First pour"⟩,
         ⟨105, 218, "Second pour"⟩] := by
  simp [planBrew_c7]

/-- C8: the AeroPress "Fill & steep" volume is emitted without rounding;
on (aeropress, 1 cup of 240 ml) it is 231.8 ml, not a whole number. -/
theorem claim_C8_counterexample :
    aeroReq.method ∈ fixedMethods ∧ ValidRequest aeroReq ∧
      ∃ s ∈ (planBrew aeroReq).pours, ¬ ∃ n : ℤ, s.volumeMl = (n : ℚ) := by
  refine ⟨by simp [fixedMethods, aeroReq],
    ⟨by norm_num [aeroReq], by norm_num [aeroReq],
      by norm_num [aeroReq, aeropressMethod], trivial, trivial⟩, ?_⟩
  refine ⟨⟨45, 1159/5, "Fill & steep"⟩, ?_, ?_⟩
  · rw [pours_aero]
    simp
  · rintro ⟨n, hn⟩
    simp only at hn
    have h5 : (1159 : ℚ) = 5 * (n : ℚ) := by linarith
    have h5' : (1159 : ℤ) = 5 * n := by exact_mod_cast h5
    omega

/-- C8 (amended): every pour volume other than the AeroPress
"Fill & steep" step is a whole number of milliliters; that one step is
the unrounded remainder and may be fractional. -/
theorem claim_C8_amended (req : BrewRequest) (hm : req.method ∈ fixedMethods)
    (_hv : ValidRequest req) :
    ∀ s ∈ (planBrew req).pours, s.label ≠ "Fill & steep" →
      ∃ n : ℤ, s.volumeMl = (n : ℚ) := by
  have hw : ∃ n : ℤ, waterTotalOf req = (n : ℚ) := by
    refine ⟨jsRound (req.targetYieldMl.getD (req.cups * req.cupSizeMl)) +
      jsRound (coffeeOf req * ABS_COEF req.method.key), ?_⟩
    rw [waterTotalOf, yieldTargetOf, absorptionOf]
    push_cast
    ring
  simp only [fixedMethods, List.mem_cons, List.not_mem_nil, or_false] at hm
  rcases hm with h | h | h | h | h
  · rw [pours_v60 req h]
    intro s hs _
    simp only [List.mem_cons, List.not_mem_nil, or_false] at hs
    rcases hs with rfl | rfl | rfl <;> exact ⟨_, rfl⟩
  · rw [pours_chemex req h]
    intro s hs _
    simp only [List.mem_cons, List.not_mem_nil, or_false] at hs
    rcases hs with rfl | rfl | rfl | rfl <;> exact ⟨_, rfl⟩
  · rw [pours_aeropress req h]
    intro s hs hlabel
    simp only [List.mem_cons, List.not_mem_nil, or_false] at hs
    rcases hs with rfl | rfl
    · exact ⟨_, rfl⟩
    · exact absurd rfl hlabel
  · rw [pours_french_press req h]
    intro s hs _
    simp only [List.mem_cons, List.not_mem_nil, or_false] at hs
    rcases hs with rfl
    exact hw
  · rw [pours_moka req h]
    intro s hs _
    simp only [List.mem_cons, List.not_mem_nil, or_false] at hs
    rcases hs with rfl
    exact hw

theorem claim_C8_amended_witness :
    c7req.method ∈ fixedMethods ∧ ValidRequest c7req ∧
      (⟨45, 266, "First pour"⟩ : PourStep) ∈ (planBrew c7req).pours ∧
      (⟨45, (266 : ℚ), "First pour"⟩ : PourStep).label ≠ "Fill & steep" ∧
      ∃ n : ℤ, ((⟨45, 266, "First pour"⟩ : PourStep)).volumeMl = (n : ℚ) := by
  have hm : c7req.method ∈ fixedMethods := by simp [fixedMethods, c7req]
  have hv : ValidRequest c7req :=
    ⟨by norm_num [c7req], by norm_num [c7req],
      by norm_num [c7req, v60Method], trivial, trivial⟩
  have hmem : (⟨45, 266, "First pour"⟩ : PourStep) ∈ (planBrew c7req).pours := by
    rw [planBrew_c7]
    simp
  have hlabel : (⟨45, (266 : ℚ), "First pour"⟩ : PourStep).label ≠ "Fill & steep" := by
    simp
  exact ⟨hm, hv, hmem, hlabel,
    claim_C8_amended c7req hm hv _ hmem hlabel⟩

/-- C9: for a blooming method the plan's `bloomMl` field is the unrounded
clamp of twice the coffee mass, while the bloom pour volume is its
`Math.round`, so they differ by at most 0.5 ml. -/
theorem claim_C9 (req : BrewRequest) (hb : req.method.bloom = true) :
    (planBrew req).bloomMl =
      some (min (max (2 * (planBrew req).coffeeGrams) 30) 60)
    ∧ ∃ s, (planBrew req).pours.head? = some s
        ∧ s.volumeMl =
          (jsRound (min (max (2 * (planBrew req).coffeeGrams) 30) 60) : ℚ)
        ∧ |min (max (2 * (planBrew req).coffeeGrams) 30) 60 - s.volumeMl| ≤
            1/2 := by
  have h1 : (planBrew req).bloomMl =
      some (min (max (2 * coffeeOf req) 30) 60) := by
    rw [planBrew_bloomMl]
    exact clampedBloom_eq req hb
  refine ⟨h1,
    ⟨⟨0, (jsRound (min (max (2 * coffeeOf req) 30) 60) : ℚ), "Bloom"⟩,
      ?_, rfl, ?_⟩⟩
  · simp [planBrew, bloomStepsOf, clampedBloom_eq req hb]
  · rw [abs_sub_comm]
    exact abs_jsRound_sub_le _

theorem claim_C9_witness :
    (planBrew aeroReq).bloomMl = some (171/5) ∧
      (∃ s, (planBrew aeroReq).pours.head? = some s ∧ s.volumeMl = 34 ∧
        |(171/5 : ℚ) - s.volumeMl| ≤ 1/2) ∧
      ¬ ∃ n : ℤ, (171/5 : ℚ) = (n : ℚ) := by
  obtain ⟨h1, s, hs, hvol, habs⟩ := claim_C9 aeroReq rfl
  have hc : min (max (2 * (planBrew aeroReq).coffeeGrams) 30) 60 = 171/5 := by
    rw [planBrew_coffeeGrams, coffeeOf_aero]
    norm_num [min_def, max_def]
  have hv34 : s.volumeMl = 34 := by
    rw [hvol, hc]
    norm_num [jsRound, Int.floor_eq_iff]
  refine ⟨by rw [h1, hc], ⟨s, hs, hv34, ?_⟩, ?_⟩
  · rw [hc] at habs
    exact habs
  · rintro ⟨n, hn⟩
    have h5 : (171 : ℚ) = 5 * (n : ℚ) := by linarith
    have h5' : (171 : ℤ) = 5 * n := by exact_mod_cast h5
    omega

/-- C10: under positivity of the inputs, the target yield and total water
are integers and the total water is at least the target yield. -/
theorem claim_C10 (req : BrewRequest) (h : PositiveRequest req) :
    (∃ a : ℤ, (planBrew req).yieldTargetMl = (a : ℚ))
    ∧ (∃ b : ℤ, (planBrew req).waterTotalMl = (b : ℚ))
    ∧ (planBrew req).yieldTargetMl ≤ (planBrew req).waterTotalMl := by
  obtain ⟨hc, hs, hR, ht⟩ := h
  have harg : 0 ≤ req.targetYieldMl.getD (req.cups * req.cupSizeMl) := by
    cases hto : req.targetYieldMl with
    | none =>
        rw [Option.getD_none]
        exact le_of_lt (mul_pos hc hs)
    | some t =>
        rw [hto] at ht
        rw [Option.getD_some]
        exact le_of_lt ht
  have hy0 : 0 ≤ yieldTargetOf req := by
    rw [yieldTargetOf]
    exact_mod_cast jsRound_nonneg harg
  have hcoffee : 0 ≤ coffeeOf req := by
    rw [coffeeOf]
    exact toFixed1_nonneg (div_nonneg hy0 (le_of_lt hR))
  have hcoef : 0 ≤ ABS_COEF req.method.key := by
    cases req.method.key <;> norm_num [ABS_COEF]
  have habs : 0 ≤ absorptionOf req := by
    rw [absorptionOf]
    exact_mod_cast jsRound_nonneg (mul_nonneg hcoffee hcoef)
  refine ⟨?_, ?_, ?_⟩
  · rw [planBrew_yieldTargetMl, yieldTargetOf]
    exact ⟨_, rfl⟩
  · refine ⟨jsRound (req.targetYieldMl.getD (req.cups * req.cupSizeMl)) +
      jsRound (coffeeOf req * ABS_COEF req.method.key), ?_⟩
    rw [planBrew_waterTotalMl, waterTotalOf, yieldTargetOf, absorptionOf]
    push_cast
    ring
  · rw [planBrew_yieldTargetMl, planBrew_waterTotalMl, waterTotalOf]
    linarith

theorem claim_C10_witness :
    PositiveRequest c7req ∧
      (∃ a : ℤ, (planBrew c7req).yieldTargetMl = (a : ℚ)) ∧
      (∃ b : ℤ, (planBrew c7req).waterTotalMl = (b : ℚ)) ∧
      (planBrew c7req).yieldTargetMl ≤ (planBrew c7req).waterTotalMl := by
  have hp : PositiveRequest c7req :=
    ⟨by norm_num [c7req], by norm_num [c7req],
      by norm_num [ratioOf, c7req, v60Method], trivial⟩
  exact ⟨hp, claim_C10 c7req hp⟩

end BrewCalc
